import Mathlib

/-!
Verification of the changelog front-end's authenticated request gateway
(services/api.ts) and its credential expiry inspector (src/utils/jwt.ts).

The gateway is modelled as a deterministic labelled transition system: the
JavaScript runtime is single-threaded and cooperative, so every code segment
between two suspension points (awaits / promise resolutions) executes
atomically and is modelled as one step.  The expiry inspector is a pure
function and is modelled directly, including the base64 and JSON decoding it
relies on.  JavaScript numbers are modelled as exact rationals together with
explicit NaN and infinity markers; IEEE-754 rounding and overflow are outside
the embedding.
-/

namespace Changelog

/-! ## Credential expiry inspector (src/utils/jwt.ts)

`parseJwtExpMs` takes the second dot-separated segment of the token, maps
the URL-safe base64 characters back to the standard alphabet, restores `=`
padding to a multiple-of-4 length, decodes with `atob`, parses the result
with `JSON.parse`, and returns `(payload?.exp ?? 0) * 1000`; a try/catch
collapses every thrown error to `0`.
Tokens are lists of characters; decoded binary strings and JSON string
contents are lists of code units (natural numbers). -/

/-- JavaScript `String.prototype.split` with a one-character separator. -/
def splitOnChar (sep : Char) : List Char → List (List Char)
  | [] => [[]]
  | c :: cs =>
    if c = sep then [] :: splitOnChar sep cs
    else
      match splitOnChar sep cs with
      | [] => [[c]]
      | h :: t => (c :: h) :: t

/-- Value of a standard base64 alphabet character, `none` outside the alphabet. -/
def b64Val (c : Char) : Option Nat :=
  if 'A' ≤ c ∧ c ≤ 'Z' then some (c.toNat - 65)
  else if 'a' ≤ c ∧ c ≤ 'z' then some (c.toNat - 97 + 26)
  else if '0' ≤ c ∧ c ≤ '9' then some (c.toNat - 48 + 52)
  else if c = '+' then some 62
  else if c = '/' then some 63
  else none

/-- ASCII whitespace removed by the forgiving-base64 decoder behind `atob`. -/
def isB64Ws (c : Char) : Bool :=
  c = ' ' || c = '\t' || c = '\n' || c = '\r' || c.toNat = 12

/-- Forgiving-base64: when the length is a multiple of four, up to two
trailing padding characters are removed before decoding. -/
def stripPad (l : List Char) : List Char :=
  if l.length % 4 = 0 then
    match l.reverse with
    | '=' :: '=' :: r => r.reverse
    | '=' :: r => r.reverse
    | _ => l
  else l

/-- Decode base64 data four characters at a time; a final group of two or
three characters yields one or two bytes (trailing bits discarded); a final
group of one character, or any character outside the alphabet, is an error. -/
def decodeChunks : List Char → Option (List Nat)
  | [] => some []
  | [a, b] =>
    match b64Val a, b64Val b with
    | some va, some vb => some [(va * 64 + vb) / 16]
    | _, _ => none
  | [a, b, c] =>
    match b64Val a, b64Val b, b64Val c with
    | some va, some vb, some vc =>
      some [(va * 4096 + vb * 64 + vc) / 1024, (va * 4096 + vb * 64 + vc) / 4 % 256]
    | _, _, _ => none
  | a :: b :: c :: d :: rest =>
    match b64Val a, b64Val b, b64Val c, b64Val d, decodeChunks rest with
    | some va, some vb, some vc, some vd, some bytes =>
      some ((va * 262144 + vb * 4096 + vc * 64 + vd) / 65536 ::
            (va * 262144 + vb * 4096 + vc * 64 + vd) / 256 % 256 ::
            (va * 262144 + vb * 4096 + vc * 64 + vd) % 256 :: bytes)
    | _, _, _, _, _ => none
  | [_] => none

/-- The browser `atob`: forgiving-base64 decode to a list of byte values. -/
def atob (s : List Char) : Option (List Nat) :=
  decodeChunks (stripPad (s.filter (fun c => !(isB64Ws c))))

/-- The base64url normalisation performed by `decodeJwtPayload`: reverse the
URL-safe substitution and restore `=` padding to a multiple-of-4 length. -/
def normalizeB64url (part : List Char) : List Char :=
  let b64 := part.map (fun c => if c = '-' then '+' else if c = '_' then '/' else c)
  b64 ++ List.replicate (if b64.length % 4 = 0 then 0 else 4 - b64.length % 4) '='

/-! ### JSON values and `JSON.parse` -/

/-- A parsed JSON value.  String contents and object keys are lists of code
units.  Numbers are exact rationals (see the file comment). -/
inductive JsVal where
  | null : JsVal
  | bool (b : Bool) : JsVal
  | num (q : ℚ) : JsVal
  | str (s : List Nat) : JsVal
  | arr (elems : List JsVal) : JsVal
  | obj (fields : List (List Nat × JsVal)) : JsVal

/-- JSON whitespace (space, tab, line feed, carriage return). -/
def jsonWsChar (c : Nat) : Bool :=
  c = 32 || c = 9 || c = 10 || c = 13

/-- Drop leading JSON whitespace. -/
def skipWs : List Nat → List Nat
  | [] => []
  | c :: cs => if jsonWsChar c then skipWs cs else c :: cs

/-- ASCII decimal digit. -/
def isDigitCU (c : Nat) : Bool := 48 ≤ c && c ≤ 57

/-- Split off a maximal run of leading decimal digits. -/
def takeDigits : List Nat → List Nat × List Nat
  | [] => ([], [])
  | c :: cs =>
    if isDigitCU c then
      match takeDigits cs with
      | (ds, r) => (c :: ds, r)
    else ([], c :: cs)

/-- Numeric value of a digit run. -/
def digitsToNat (ds : List Nat) : Nat :=
  ds.foldl (fun acc d => acc * 10 + (d - 48)) 0

/-- Value of a hexadecimal digit code unit. -/
def hexVal (c : Nat) : Option Nat :=
  if 48 ≤ c ∧ c ≤ 57 then some (c - 48)
  else if 65 ≤ c ∧ c ≤ 70 then some (c - 55)
  else if 97 ≤ c ∧ c ≤ 102 then some (c - 87)
  else none

/-- Parse the body of a JSON string after the opening quote, handling the
escape sequences and rejecting raw control characters; returns the decoded
code units and the input after the closing quote. -/
def parseStrChars : Nat → List Nat → Option (List Nat × List Nat)
  | 0, _ => none
  | _ + 1, [] => none
  | fuel + 1, c :: r =>
    if c = 34 then some ([], r)
    else if c = 92 then
      match r with
      | [] => none
      | e :: r2 =>
        if e = 34 || e = 92 || e = 47 then
          (parseStrChars fuel r2).map (fun p => (e :: p.1, p.2))
        else if e = 98 then (parseStrChars fuel r2).map (fun p => (8 :: p.1, p.2))
        else if e = 102 then (parseStrChars fuel r2).map (fun p => (12 :: p.1, p.2))
        else if e = 110 then (parseStrChars fuel r2).map (fun p => (10 :: p.1, p.2))
        else if e = 114 then (parseStrChars fuel r2).map (fun p => (13 :: p.1, p.2))
        else if e = 116 then (parseStrChars fuel r2).map (fun p => (9 :: p.1, p.2))
        else if e = 117 then
          match r2 with
          | h1 :: h2 :: h3 :: h4 :: r3 =>
            match hexVal h1, hexVal h2, hexVal h3, hexVal h4 with
            | some a, some b, some c2, some d =>
              (parseStrChars fuel r3).map
                (fun p => ((a * 4096 + b * 256 + c2 * 16 + d) :: p.1, p.2))
            | _, _, _, _ => none
          | _ => none
        else none
    else if c < 32 then none
    else (parseStrChars fuel r).map (fun p => (c :: p.1, p.2))

/-- Parse the optional exponent part of a numeric literal (`e`/`E`, optional
sign, one or more digits); returns the exponent and the remaining input. -/
def parseExpPart : List Nat → Option (Int × List Nat)
  | [] => some (0, [])
  | c :: r =>
    if c = 101 || c = 69 then
      match
        (match r with
         | 43 :: r2 => ((1 : Int), r2)
         | 45 :: r2 => ((-1 : Int), r2)
         | _ => ((1 : Int), r)) with
      | (sgn, r1) =>
        match takeDigits r1 with
        | ([], _) => none
        | (ds, r2) => some (sgn * (digitsToNat ds : Int), r2)
    else some (0, c :: r)

/-- Assemble a rational from integer digits, fraction digits and exponent:
the exact value of `sign (iv.fds) * 10 ^ ex`, built with integer arithmetic
as a single fraction. -/
def ratOfParts (neg : Bool) (iv : Nat) (fds : List Nat) (ex : Int) : ℚ :=
  let sign : Int := if neg then -1 else 1
  let mant : Int := (iv * 10 ^ fds.length + digitsToNat fds : Nat)
  if 0 ≤ ex then mkRat (sign * mant * ((10 ^ ex.toNat : Nat) : Int)) (10 ^ fds.length)
  else mkRat (sign * mant) (10 ^ fds.length * 10 ^ (-ex).toNat)

/-- Parse a JSON number literal (`-? int frac? exp?`, where int is `0` or a
nonzero-led digit run). -/
def parseJsonNumber (input : List Nat) : Option (ℚ × List Nat) :=
  match
    (match input with
     | 45 :: r => (true, r)
     | _ => (false, input)) with
  | (neg, r1) =>
    match r1 with
    | [] => none
    | c :: r =>
      if c = 48 then
        match
          (match r with
           | 46 :: r3 =>
             match takeDigits r3 with
             | ([], _) => none
             | (fds, r4) => some (fds, r4)
           | _ => some (([] : List Nat), r)) with
        | none => none
        | some (fds, r4) =>
          match parseExpPart r4 with
          | none => none
          | some (ex, r5) => some (ratOfParts neg 0 fds ex, r5)
      else if isDigitCU c then
        match takeDigits (c :: r) with
        | (ids, r2) =>
          match
            (match r2 with
             | 46 :: r3 =>
               match takeDigits r3 with
               | ([], _) => none
               | (fds, r4) => some (fds, r4)
             | _ => some (([] : List Nat), r2)) with
          | none => none
          | some (fds, r4) =>
            match parseExpPart r4 with
            | none => none
            | some (ex, r5) => some (ratOfParts neg (digitsToNat ids) fds ex, r5)
      else none

/-- Parsing mode of the recursive-descent JSON parser: a value, the members
of an object (accumulated so far), or the elements of an array. -/
inductive PMode where
  | value : PMode
  | members (acc : List (List Nat × JsVal)) : PMode
  | elems (acc : List JsVal) : PMode

/-- Fueled recursive-descent parser for JSON texts, following the grammar
accepted by `JSON.parse` (member lists keep duplicate keys in order). -/
def parseJ : Nat → PMode → List Nat → Option (JsVal × List Nat)
  | 0, _, _ => none
  | fuel + 1, PMode.value, input =>
    match skipWs input with
    | [] => none
    | c :: r =>
      if c = 34 then
        match parseStrChars (r.length + 1) r with
        | some (s, rest) => some (JsVal.str s, rest)
        | none => none
      else if c = 123 then
        match skipWs r with
        | 125 :: r2 => some (JsVal.obj [], r2)
        | r1 => parseJ fuel (PMode.members []) r1
      else if c = 91 then
        match skipWs r with
        | 93 :: r2 => some (JsVal.arr [], r2)
        | r1 => parseJ fuel (PMode.elems []) r1
      else if c = 116 then
        match r with
        | 114 :: 117 :: 101 :: rest => some (JsVal.bool true, rest)
        | _ => none
      else if c = 102 then
        match r with
        | 97 :: 108 :: 115 :: 101 :: rest => some (JsVal.bool false, rest)
        | _ => none
      else if c = 110 then
        match r with
        | 117 :: 108 :: 108 :: rest => some (JsVal.null, rest)
        | _ => none
      else
        match parseJsonNumber (c :: r) with
        | some (q, rest) => some (JsVal.num q, rest)
        | none => none
  | fuel + 1, PMode.members acc, input =>
    match input with
    | 34 :: r =>
      match parseStrChars (r.length + 1) r with
      | none => none
      | some (k, r1) =>
        match skipWs r1 with
        | 58 :: r2 =>
          match parseJ fuel PMode.value r2 with
          | none => none
          | some (v, r3) =>
            match skipWs r3 with
            | 44 :: r4 => parseJ fuel (PMode.members (acc ++ [(k, v)])) (skipWs r4)
            | 125 :: r4 => some (JsVal.obj (acc ++ [(k, v)]), r4)
            | _ => none
        | _ => none
    | _ => none
  | fuel + 1, PMode.elems acc, input =>
    match parseJ fuel PMode.value input with
    | none => none
    | some (v, r1) =>
      match skipWs r1 with
      | 44 :: r2 => parseJ fuel (PMode.elems (acc ++ [v])) r2
      | 93 :: r2 => some (JsVal.arr (acc ++ [v]), r2)
      | _ => none

/-- `JSON.parse`: parse one value and require only whitespace to remain. -/
def jsonParse (input : List Nat) : Option JsVal :=
  match parseJ (4 * input.length + 8) PMode.value input with
  | some (v, rest) => if skipWs rest = [] then some v else none
  | none => none

/-! ### Property lookup and JavaScript number coercion -/

/-- Property access on a parsed object literal: of duplicate keys, the last
occurrence wins, as in JavaScript object construction. -/
def lookupLast (fields : List (List Nat × JsVal)) (k : List Nat) : Option JsVal :=
  match fields with
  | [] => none
  | (k2, v) :: rest =>
    match lookupLast rest k with
    | some r => some r
    | none => if k2 = k then some v else none

/-- The code units of the property name `exp`. -/
def expKey : List Nat := [101, 120, 112]

/-- `payload?.exp`: property access, `none` (undefined) on non-objects. -/
def getField : JsVal → List Nat → Option JsVal
  | JsVal.obj fs, k => lookupLast fs k
  | _, _ => none

/-- A JavaScript number: NaN, an infinity, or a finite value (modelled as an
exact rational). -/
inductive JsNum where
  | nan : JsNum
  | posInf : JsNum
  | negInf : JsNum
  | num (q : ℚ) : JsNum
deriving DecidableEq

/-- Whitespace trimmed by JavaScript string-to-number conversion. -/
def jsWsChar (c : Nat) : Bool :=
  c = 9 || c = 10 || c = 11 || c = 12 || c = 13 || c = 32 || c = 160 ||
  c = 5760 || (8192 ≤ c && c ≤ 8202) || c = 8232 || c = 8233 || c = 8239 ||
  c = 8287 || c = 12288 || c = 65279

/-- Trim whitespace on both ends. -/
def trimJsWs (l : List Nat) : List Nat :=
  ((l.dropWhile (fun c => jsWsChar c)).reverse.dropWhile (fun c => jsWsChar c)).reverse

/-- The code units of `Infinity`. -/
def infinityUnits : List Nat := [73, 110, 102, 105, 110, 105, 116, 121]

/-- Finish a decimal string-number literal: optional exponent, then the end
of the input must have been reached. -/
def expTailQ (neg : Bool) (ids fds : List Nat) (r : List Nat) : Option JsNum :=
  match parseExpPart r with
  | none => none
  | some (ex, rest) =>
    if rest = [] then some (JsNum.num (ratOfParts neg (digitsToNat ids) fds ex))
    else none

/-- A full decimal string-number literal (sign, `Infinity` or digits with
optional fraction and exponent), consuming the entire input. -/
def decimalAll (t : List Nat) : Option JsNum :=
  match
    (match t with
     | 43 :: r => (false, r)
     | 45 :: r => (true, r)
     | _ => (false, t)) with
  | (neg, r1) =>
    if r1 = infinityUnits then some (if neg then JsNum.negInf else JsNum.posInf)
    else
      match takeDigits r1 with
      | (ids, r2) =>
        match r2 with
        | 46 :: r3 =>
          match takeDigits r3 with
          | (fds, r4) =>
            if ids = [] ∧ fds = [] then none else expTailQ neg ids fds r4
        | _ => if ids = [] then none else expTailQ neg ids [] r2

/-- Accumulate the value of a nonempty digit run in the given radix. -/
def radixAll (base : Nat) (dv : Nat → Option Nat) (l : List Nat) : Option Nat :=
  match l with
  | [] => none
  | _ =>
    l.foldl
      (fun acc c =>
        match acc, dv c with
        | some a, some d => some (a * base + d)
        | _, _ => none)
      (some 0)

/-- Octal digit value. -/
def octVal (c : Nat) : Option Nat :=
  if 48 ≤ c ∧ c ≤ 55 then some (c - 48) else none

/-- Binary digit value. -/
def binVal (c : Nat) : Option Nat :=
  if 48 ≤ c ∧ c ≤ 49 then some (c - 48) else none

/-- JavaScript `ToNumber` on a string: trim, empty means zero, otherwise a
decimal literal (with sign, `Infinity`, fraction, exponent) or a `0x`/`0o`/
`0b` radix literal; anything else is NaN. -/
def jsStringToNumber (s : List Nat) : JsNum :=
  match trimJsWs s with
  | [] => JsNum.num 0
  | 48 :: x :: rest =>
    if x = 120 || x = 88 then
      match radixAll 16 hexVal rest with
      | some n => JsNum.num (mkRat (Int.ofNat n) 1)
      | none => JsNum.nan
    else if x = 111 || x = 79 then
      match radixAll 8 octVal rest with
      | some n => JsNum.num (mkRat (Int.ofNat n) 1)
      | none => JsNum.nan
    else if x = 98 || x = 66 then
      match radixAll 2 binVal rest with
      | some n => JsNum.num (mkRat (Int.ofNat n) 1)
      | none => JsNum.nan
    else
      match decimalAll (48 :: x :: rest) with
      | some v => v
      | none => JsNum.nan
  | t =>
    match decimalAll t with
    | some v => v
    | none => JsNum.nan

/-- `ToNumber` of a single array element via its string conversion: this is
what `ToNumber` of a one-element array amounts to, since `String([x])` is
`String(x)` (and `String([null])` is the empty string). -/
def jsElemToNumber : JsVal → JsNum
  | JsVal.null => JsNum.num 0
  | JsVal.num q => JsNum.num q
  | JsVal.str s => jsStringToNumber s
  | JsVal.bool _ => JsNum.nan
  | JsVal.obj _ => JsNum.nan
  | JsVal.arr [] => JsNum.num 0
  | JsVal.arr [v] => jsElemToNumber v
  | JsVal.arr _ => JsNum.nan

/-- JavaScript `ToNumber` on a JSON value: numbers and booleans convert
directly, strings via the string grammar, plain objects to NaN (their string
form is `[object Object]`), arrays via their joined string form (two or more
elements always contain a comma and give NaN). -/
def jsToNumber : JsVal → JsNum
  | JsVal.null => JsNum.num 0
  | JsVal.bool b => JsNum.num (if b then 1 else 0)
  | JsVal.num q => JsNum.num q
  | JsVal.str s => jsStringToNumber s
  | JsVal.obj _ => JsNum.nan
  | JsVal.arr [] => JsNum.num 0
  | JsVal.arr [v] => jsElemToNumber v
  | JsVal.arr _ => JsNum.nan

/-- Multiplication by the literal 1000 on JavaScript numbers. -/
def jsNumMul1000 : JsNum → JsNum
  | JsNum.nan => JsNum.nan
  | JsNum.posInf => JsNum.posInf
  | JsNum.negInf => JsNum.negInf
  | JsNum.num q => JsNum.num (q * 1000)

/-- `decodeJwtPayload`: take the second dot-separated segment (throwing,
i.e. `none`, when it is missing or empty), reverse the URL-safe base64
substitution, restore padding, `atob`, and `JSON.parse` the result. -/
def decodeJwtPayload (token : List Char) : Option JsVal :=
  match (splitOnChar '.' token)[1]? with
  | none => none
  | some part =>
    if part = [] then none
    else
      match atob (normalizeB64url part) with
      | none => none
      | some bytes => jsonParse bytes

/-- `parseJwtExpMs`: `(decodeJwtPayload(token)?.exp ?? 0) * 1000`, with every
thrown error caught and collapsed to `0`. -/
def parseJwtExpMs (token : List Char) : JsNum :=
  match decodeJwtPayload token with
  | none => JsNum.num 0
  | some payload =>
    match getField payload expKey with
    | none => JsNum.num 0
    | some JsVal.null => JsNum.num 0
    | some v => jsNumMul1000 (jsToNumber v)

/-! ## Authenticated request gateway (services/api.ts)

Module state: `let refreshing = false; let queue = [];` plus the browser
`localStorage`.  The request interceptor attaches `Bearer <token>` when a
token is stored.  The response interceptor, on a 401 for a not-yet-retried
request, marks the request retried, then either enqueues it (a refresh is in
flight) or becomes the single refresher: it issues the refresh call and, on
settlement, drains the queue, re-dispatches everything, and resets the flag
— all within one synchronous segment, hence one atomic step here.
Each client request is a task identified by a number; its axios config (the
`_retry` marker and the Authorization header) lives in the task map, and the
pending-request queue holds task identifiers in push order. -/

/-- An axios request config: the per-request one-shot retry marker and the
Authorization header (the full `Bearer ...` value) if any. -/
structure Config where
  retry : Bool
  auth : Option String
deriving DecidableEq, Repr

/-- The outcome delivered to a caller: a successful response (recording the
Authorization header the settled dispatch carried), an HTTP failure passed
through unchanged, a network-level failure passed through unchanged, or
rejection with the refresh call's failure. -/
inductive Outcome where
  | ok (usedAuth : Option String) : Outcome
  | httpErr (status : Nat) : Outcome
  | netErr : Outcome
  | refreshFailed : Outcome
deriving DecidableEq, Repr

/-- The status of one client request task. -/
inductive TaskState where
  | active (cfg : Config) : TaskState
  | queued (cfg : Config) : TaskState
  | leader (cfg : Config) : TaskState
  | done (r : Outcome) : TaskState
deriving DecidableEq, Repr

/-- Whether a task is currently awaiting the refresh call it issued. -/
def isLeaderState : TaskState → Bool
  | TaskState.leader _ => true
  | _ => false

/-- The gateway system state: `localStorage` (an association list of keys to
values), the refresh-in-flight flag, the pending-request queue (task ids in
push order), the task map, a ghost counter of refresh calls issued, and a
ghost flag recording the forced navigation to the login entry point. -/
structure Sys where
  store : List (String × String)
  refreshing : Bool
  queue : List Nat
  tasks : List (Nat × TaskState)
  refreshCalls : Nat
  navigatedHome : Bool
deriving DecidableEq, Repr

/-- `localStorage.getItem`. -/
def getItem : List (String × String) → String → Option String
  | [], _ => none
  | (k2, v) :: rest, k => if k2 = k then some v else getItem rest k

/-- `localStorage.setItem`: overwrite in place or append. -/
def setItem : List (String × String) → String → String → List (String × String)
  | [], k, v => [(k, v)]
  | (k2, v2) :: rest, k, v =>
    if k2 = k then (k, v) :: rest else (k2, v2) :: setItem rest k v

/-- Look a task up by id. -/
def getTask : List (Nat × TaskState) → Nat → Option TaskState
  | [], _ => none
  | (i, st) :: rest, j => if i = j then some st else getTask rest j

/-- Update a task in place, or add it when absent. -/
def setTask : List (Nat × TaskState) → Nat → TaskState → List (Nat × TaskState)
  | [], j, st => [(j, st)]
  | (i, st2) :: rest, j, st =>
    if i = j then (j, st) :: rest else (i, st2) :: setTask rest j st

/-- The request interceptor: `const t = localStorage.getItem("token");
if (t) cfg.headers.Authorization = ...` — the header is attached only when
the stored token is truthy (present and nonempty), otherwise the config is
forwarded unchanged. -/
def applyRequestInterceptor (st : List (String × String)) (cfg : Config) : Config :=
  match getItem st "token" with
  | some t => if t = "" then cfg else { cfg with auth := some ("Bearer " ++ t) }
  | none => cfg

/-- The task currently awaiting the refresh call, if any. -/
def findLeader : List (Nat × TaskState) → Option (Nat × Config)
  | [] => none
  | (i, st) :: rest =>
    match st with
    | TaskState.leader c => some (i, c)
    | _ => findLeader rest

/-- `queue.forEach((w) => w.res(api(w.original)))` after a successful
refresh: each suspended waiter is resolved with a fresh dispatch of its
original config, which passes through the request interceptor and so picks
up the newly stored token. -/
def resumeQueued (st : List (String × String)) (ts : List (Nat × TaskState)) :
    List Nat → List (Nat × TaskState)
  | [] => ts
  | id :: rest =>
    resumeQueued st
      (match getTask ts id with
       | some (TaskState.queued c) =>
         setTask ts id (TaskState.active (applyRequestInterceptor st c))
       | _ => ts)
      rest

/-- `queue.forEach((w) => w.rej(e))` after a failed refresh: each suspended
waiter is rejected with the refresh failure. -/
def rejectQueued (ts : List (Nat × TaskState)) : List Nat → List (Nat × TaskState)
  | [] => ts
  | id :: rest =>
    rejectQueued
      (match getTask ts id with
       | some (TaskState.queued _) =>
         setTask ts id (TaskState.done Outcome.refreshFailed)
       | _ => ts)
      rest

/-- Events: a fresh `send` call; the network settling an active dispatch
with a success, an HTTP failure (carrying its status) or a network-level
failure (no response, status `none`); and the refresh call settling with a
new token or with a failure. -/
inductive Ev where
  | submit (id : Nat) : Ev
  | respondOk (id : Nat) : Ev
  | respondErr (id : Nat) (status : Option Nat) : Ev
  | refreshOk (tok : String) : Ev
  | refreshErr : Ev
deriving DecidableEq, Repr

/-- One atomic step of the gateway.  `none` means the event is not enabled
in this state (e.g. a response for a request that is not in flight). -/
def step (s : Sys) : Ev → Option Sys
  | Ev.submit id =>
    match getTask s.tasks id with
    | some _ => none
    | none =>
      some { s with tasks := setTask s.tasks id (TaskState.active
               (applyRequestInterceptor s.store { retry := false, auth := none })) }
  | Ev.respondOk id =>
    match getTask s.tasks id with
    | some (TaskState.active cfg) =>
      some { s with tasks := setTask s.tasks id (TaskState.done (Outcome.ok cfg.auth)) }
    | _ => none
  | Ev.respondErr id status =>
    match getTask s.tasks id with
    | some (TaskState.active cfg) =>
      if status = some 401 ∧ cfg.retry = false then
        if s.refreshing then
          some { s with
            queue := s.queue ++ [id],
            tasks := setTask s.tasks id (TaskState.queued { cfg with retry := true }) }
        else
          some { s with
            refreshing := true,
            refreshCalls := s.refreshCalls + 1,
            tasks := setTask s.tasks id (TaskState.leader { cfg with retry := true }) }
      else
        some { s with tasks := setTask s.tasks id (TaskState.done
                 (match status with
                  | some n => Outcome.httpErr n
                  | none => Outcome.netErr)) }
    | _ => none
  | Ev.refreshOk tok =>
    match findLeader s.tasks with
    | none => none
    | some (lid, lcfg) =>
      some { s with
        store := setItem s.store "token" tok,
        tasks := setTask
          (resumeQueued (setItem s.store "token" tok) s.tasks s.queue) lid
          (TaskState.active (applyRequestInterceptor (setItem s.store "token" tok)
            { lcfg with auth := some ("Bearer " ++ tok) })),
        queue := [],
        refreshing := false }
  | Ev.refreshErr =>
    match findLeader s.tasks with
    | none => none
    | some (lid, _) =>
      some { s with
        store := [],
        navigatedHome := true,
        tasks := setTask (rejectQueued s.tasks s.queue) lid
          (TaskState.done Outcome.refreshFailed),
        queue := [],
        refreshing := false }

/-- Run a sequence of events. -/
def run (s : Sys) : List Ev → Option Sys
  | [] => some s
  | e :: es =>
    match step s e with
    | none => none
    | some s2 => run s2 es

/-- The task map has no duplicate ids. -/
@[reducible] def keysNodup (ts : List (Nat × TaskState)) : Prop :=
  (ts.map Prod.fst).Nodup

/-- The storage writes performed by the login screen on success
(SignIn.handleSubmit): the token, the authenticated flag and the
expiry hint. -/
def loginWrites (st : List (String × String)) (tok expiresAt : String) :
    List (String × String) :=
  setItem (setItem (setItem st "token" tok) "authenticated" "true") "expires_at" expiresAt

/-! ### Concrete states used to instantiate the theorems -/

/-- A storage snapshot as left by a successful login. -/
def storeT1 : List (String × String) :=
  [("token", "T1"), ("authenticated", "true"), ("expires_at", "1700")]

/-- Three requests in flight, no refresh active. -/
def sysIdle : Sys :=
  { store := storeT1, refreshing := false, queue := [],
    tasks := [(0, TaskState.active { retry := false, auth := some "Bearer T1" }),
              (1, TaskState.active { retry := false, auth := some "Bearer T1" }),
              (2, TaskState.active { retry := false, auth := some "Bearer T1" })],
    refreshCalls := 0, navigatedHome := false }

/-- A refresh in flight (task 0 is the refresher), task 1 still active. -/
def sysRefreshing : Sys :=
  { store := storeT1, refreshing := true, queue := [],
    tasks := [(0, TaskState.leader { retry := true, auth := some "Bearer T1" }),
              (1, TaskState.active { retry := false, auth := some "Bearer T1" })],
    refreshCalls := 1, navigatedHome := false }

/-- A refresh in flight with task 1 suspended on the queue. -/
def sysQueued : Sys :=
  { store := storeT1, refreshing := true, queue := [1],
    tasks := [(0, TaskState.leader { retry := true, auth := some "Bearer T1" }),
              (1, TaskState.queued { retry := true, auth := some "Bearer T1" })],
    refreshCalls := 1, navigatedHome := false }

/-- A request already replayed once, active again with the fresh credential. -/
def sysRetried : Sys :=
  { store := setItem storeT1 "token" "T2", refreshing := false, queue := [],
    tasks := [(0, TaskState.active { retry := true, auth := some "Bearer T2" })],
    refreshCalls := 1, navigatedHome := false }

/-- Storage with no token key at all. -/
def sysNoToken : Sys :=
  { store := [], refreshing := false, queue := [], tasks := [],
    refreshCalls := 0, navigatedHome := false }

/-- The state `sysQueued` reaches when the refresh call fails. -/
def sysQueuedFailed : Sys :=
  { store := [], refreshing := false, queue := [],
    tasks := [(0, TaskState.done Outcome.refreshFailed),
              (1, TaskState.done Outcome.refreshFailed)],
    refreshCalls := 1, navigatedHome := true }

/-- The state `sysIdle` reaches after submitting request 5 and its success. -/
def sysIdleDone : Sys :=
  { store := storeT1, refreshing := false, queue := [],
    tasks := [(0, TaskState.active { retry := false, auth := some "Bearer T1" }),
              (1, TaskState.active { retry := false, auth := some "Bearer T1" }),
              (2, TaskState.active { retry := false, auth := some "Bearer T1" }),
              (5, TaskState.done (Outcome.ok (some "Bearer T1")))],
    refreshCalls := 0, navigatedHome := false }

/-- The state `sysIdle` reaches after three 401s and a successful refresh. -/
def sysIdleRefreshed : Sys :=
  { store := [("token", "T2"), ("authenticated", "true"), ("expires_at", "1700")],
    refreshing := false, queue := [],
    tasks := [(0, TaskState.active { retry := true, auth := some "Bearer T2" }),
              (1, TaskState.active { retry := true, auth := some "Bearer T2" }),
              (2, TaskState.active { retry := true, auth := some "Bearer T2" })],
    refreshCalls := 1, navigatedHome := false }

/-- A refresher awaiting its refresh call, with storage as left by login. -/
def sysLoggedLeader : Sys :=
  { store := loginWrites [] "T1" "1700", refreshing := true, queue := [],
    tasks := [(0, TaskState.leader { retry := true, auth := some "Bearer T1" })],
    refreshCalls := 1, navigatedHome := false }

/-- The state `sysLoggedLeader` reaches when the refresh call fails. -/
def sysLoggedCleared : Sys :=
  { store := [], refreshing := false, queue := [],
    tasks := [(0, TaskState.done Outcome.refreshFailed)],
    refreshCalls := 1, navigatedHome := true }

/-! ## Infrastructure lemmas -/

theorem getItem_setItem_self (st : List (String × String)) (k v : String) :
    getItem (setItem st k v) k = some v := by
  induction st with
  | nil => simp [setItem, getItem]
  | cons p rest ih =>
    by_cases h : p.1 = k
    · simp [setItem, getItem, h]
    · simp [setItem, getItem, h, ih]

theorem getTask_setTask_self (ts : List (Nat × TaskState)) (j : Nat) (st : TaskState) :
    getTask (setTask ts j st) j = some st := by
  induction ts with
  | nil => simp [setTask, getTask]
  | cons p rest ih =>
    by_cases h : p.1 = j
    · simp [setTask, getTask, h]
    · simp [setTask, getTask, h, ih]

theorem getTask_setTask_ne (ts : List (Nat × TaskState)) (j i : Nat) (st : TaskState)
    (h : j ≠ i) : getTask (setTask ts j st) i = getTask ts i := by
  induction ts with
  | nil => simp [setTask, getTask, h]
  | cons p rest ih =>
    by_cases hp : p.1 = j
    · simp [setTask, getTask, hp, h]
    · by_cases hi : p.1 = i
      · simp [setTask, getTask, hp, hi, Ne.symm h]
      · simp [setTask, getTask, hp, hi, ih]

theorem mem_setTask (ts : List (Nat × TaskState)) (j : Nat) (st : TaskState)
    (p : Nat × TaskState) (h : p ∈ setTask ts j st) : p ∈ ts ∨ p = (j, st) := by
  induction ts with
  | nil => simpa [setTask] using h
  | cons q rest ih =>
    by_cases hq : q.1 = j
    · simp [setTask, hq] at h
      rcases h with h | h
      · right; simpa using h
      · left; exact List.mem_cons_of_mem _ h
    · simp [setTask, hq] at h
      rcases h with h | h
      · left; simp [h]
      · rcases ih h with h2 | h2
        · left; exact List.mem_cons_of_mem _ h2
        · right; exact h2

theorem keys_setTask (ts : List (Nat × TaskState)) (j : Nat) (st w : TaskState)
    (h : getTask ts j = some w) :
    (setTask ts j st).map Prod.fst = ts.map Prod.fst := by
  induction ts with
  | nil => simp [getTask] at h
  | cons p rest ih =>
    by_cases hp : p.1 = j
    · simp [setTask, hp]
    · simp [getTask, hp] at h
      simp [setTask, hp, ih h]

theorem splitOnChar_of_not_mem (sep : Char) (l : List Char) (h : sep ∉ l) :
    splitOnChar sep l = [l] := by
  induction l with
  | nil => rfl
  | cons c cs ih =>
    have hc : ¬ c = sep := fun e => h (e ▸ List.mem_cons_self c cs)
    have hcs : sep ∉ cs := fun m => h (List.mem_cons_of_mem c m)
    simp [splitOnChar, hc, ih hcs]

theorem run_append (a b : List Ev) (s : Sys) :
    run s (a ++ b) =
      match run s a with
      | none => none
      | some s2 => run s2 b := by
  induction a generalizing s with
  | nil => simp [run]
  | cons e es ih =>
    simp only [List.cons_append, run]
    cases step s e with
    | none => rfl
    | some s2 => exact ih s2

theorem run_cons_some (s s1 : Sys) (e : Ev) (es : List Ev) (h : step s e = some s1) :
    run s (e :: es) = run s1 es := by
  simp only [run, h]

theorem getTask_resumeQueued_stable (st : List (String × String)) (ids : List Nat)
    (ts : List (Nat × TaskState)) (id : Nat)
    (h : ∀ c, getTask ts id ≠ some (TaskState.queued c)) :
    getTask (resumeQueued st ts ids) id = getTask ts id := by
  induction ids generalizing ts with
  | nil => rfl
  | cons j rest ih =>
    by_cases hj : j = id
    · subst hj
      rcases hg : getTask ts j with _ | w
      · simp only [resumeQueued, hg]; rw [ih ts h]; exact hg
      · cases w with
        | queued c => exact absurd hg (h c)
        | active c => simp only [resumeQueued, hg]; rw [ih ts h]; exact hg
        | leader c => simp only [resumeQueued, hg]; rw [ih ts h]; exact hg
        | done r => simp only [resumeQueued, hg]; rw [ih ts h]; exact hg
    · rcases hg : getTask ts j with _ | w
      · simp only [resumeQueued, hg]; exact ih ts h
      · cases w with
        | queued c =>
          simp only [resumeQueued, hg]
          have hpres : getTask (setTask ts j (TaskState.active (applyRequestInterceptor st c))) id
              = getTask ts id := getTask_setTask_ne ts j id _ hj
          rw [ih _ (fun c2 => by rw [hpres]; exact h c2), hpres]
        | active c => simp only [resumeQueued, hg]; exact ih ts h
        | leader c => simp only [resumeQueued, hg]; exact ih ts h
        | done r => simp only [resumeQueued, hg]; exact ih ts h

theorem getTask_resumeQueued_queued (st : List (String × String)) (ids : List Nat)
    (ts : List (Nat × TaskState)) (id : Nat) (c : Config)
    (h1 : getTask ts id = some (TaskState.queued c)) (h2 : id ∈ ids) :
    getTask (resumeQueued st ts ids) id
      = some (TaskState.active (applyRequestInterceptor st c)) := by
  induction ids generalizing ts with
  | nil => cases h2
  | cons j rest ih =>
    by_cases hj : j = id
    · subst hj
      simp only [resumeQueued, h1]
      have hset : getTask (setTask ts j (TaskState.active (applyRequestInterceptor st c))) j
          = some (TaskState.active (applyRequestInterceptor st c)) :=
        getTask_setTask_self ts j _
      rw [getTask_resumeQueued_stable st rest _ j (fun c2 => by rw [hset]; simp), hset]
    · have hmem : id ∈ rest := by
        rcases List.mem_cons.mp h2 with h | h
        · exact absurd h.symm hj
        · exact h
      rcases hg : getTask ts j with _ | w
      · simp only [resumeQueued, hg]; exact ih ts h1 hmem
      · cases w with
        | queued c2 =>
          simp only [resumeQueued, hg]
          exact ih _ (by rw [getTask_setTask_ne ts j id _ hj]; exact h1) hmem
        | active c2 => simp only [resumeQueued, hg]; exact ih ts h1 hmem
        | leader c2 => simp only [resumeQueued, hg]; exact ih ts h1 hmem
        | done r => simp only [resumeQueued, hg]; exact ih ts h1 hmem

theorem getTask_rejectQueued_stable (ids : List Nat)
    (ts : List (Nat × TaskState)) (id : Nat)
    (h : ∀ c, getTask ts id ≠ some (TaskState.queued c)) :
    getTask (rejectQueued ts ids) id = getTask ts id := by
  induction ids generalizing ts with
  | nil => rfl
  | cons j rest ih =>
    by_cases hj : j = id
    · subst hj
      rcases hg : getTask ts j with _ | w
      · simp only [rejectQueued, hg]; rw [ih ts h]; exact hg
      · cases w with
        | queued c => exact absurd hg (h c)
        | active c => simp only [rejectQueued, hg]; rw [ih ts h]; exact hg
        | leader c => simp only [rejectQueued, hg]; rw [ih ts h]; exact hg
        | done r => simp only [rejectQueued, hg]; rw [ih ts h]; exact hg
    · rcases hg : getTask ts j with _ | w
      · simp only [rejectQueued, hg]; exact ih ts h
      · cases w with
        | queued c =>
          simp only [rejectQueued, hg]
          have hpres : getTask (setTask ts j (TaskState.done Outcome.refreshFailed)) id
              = getTask ts id := getTask_setTask_ne ts j id _ hj
          rw [ih _ (fun c2 => by rw [hpres]; exact h c2), hpres]
        | active c => simp only [rejectQueued, hg]; exact ih ts h
        | leader c => simp only [rejectQueued, hg]; exact ih ts h
        | done r => simp only [rejectQueued, hg]; exact ih ts h

theorem getTask_rejectQueued_queued (ids : List Nat)
    (ts : List (Nat × TaskState)) (id : Nat) (c : Config)
    (h1 : getTask ts id = some (TaskState.queued c)) (h2 : id ∈ ids) :
    getTask (rejectQueued ts ids) id = some (TaskState.done Outcome.refreshFailed) := by
  induction ids generalizing ts with
  | nil => cases h2
  | cons j rest ih =>
    by_cases hj : j = id
    · subst hj
      simp only [rejectQueued, h1]
      have hset : getTask (setTask ts j (TaskState.done Outcome.refreshFailed)) j
          = some (TaskState.done Outcome.refreshFailed) := getTask_setTask_self ts j _
      rw [getTask_rejectQueued_stable rest _ j (fun c2 => by rw [hset]; simp), hset]
    · have hmem : id ∈ rest := by
        rcases List.mem_cons.mp h2 with h | h
        · exact absurd h.symm hj
        · exact h
      rcases hg : getTask ts j with _ | w
      · simp only [rejectQueued, hg]; exact ih ts h1 hmem
      · cases w with
        | queued c2 =>
          simp only [rejectQueued, hg]
          exact ih _ (by rw [getTask_setTask_ne ts j id _ hj]; exact h1) hmem
        | active c2 => simp only [rejectQueued, hg]; exact ih ts h1 hmem
        | leader c2 => simp only [rejectQueued, hg]; exact ih ts h1 hmem
        | done r => simp only [rejectQueued, hg]; exact ih ts h1 hmem

theorem findLeader_eq (ts : List (Nat × TaskState)) (l : Nat) (c : Config)
    (h1 : getTask ts l = some (TaskState.leader c))
    (h2 : ∀ p ∈ ts, p.1 ≠ l → isLeaderState p.2 = false) :
    findLeader ts = some (l, c) := by
  induction ts with
  | nil => simp [getTask] at h1
  | cons p rest ih =>
    rcases hpst : p.2 with cfg | cfg | cfg | r
    · -- active head: not the leader, and its key differs from l
      have hkey : ¬ p.1 = l := by
        intro e
        rw [getTask, if_pos e] at h1
        rw [hpst] at h1
        cases h1
      rw [getTask, if_neg hkey] at h1
      have : findLeader (p :: rest) = findLeader rest := by
        cases p with
        | mk i st => simp only [findLeader]; rw [show st = TaskState.active cfg from hpst]
      rw [this]
      exact ih h1 (fun q hq hne => h2 q (List.mem_cons_of_mem p hq) hne)
    · have hkey : ¬ p.1 = l := by
        intro e
        rw [getTask, if_pos e] at h1
        rw [hpst] at h1
        cases h1
      rw [getTask, if_neg hkey] at h1
      have : findLeader (p :: rest) = findLeader rest := by
        cases p with
        | mk i st => simp only [findLeader]; rw [show st = TaskState.queued cfg from hpst]
      rw [this]
      exact ih h1 (fun q hq hne => h2 q (List.mem_cons_of_mem p hq) hne)
    · -- leader head: it must be entry l
      have hkey : p.1 = l := by
        by_contra hne
        have := h2 p (List.mem_cons_self p rest) hne
        rw [hpst] at this
        simp [isLeaderState] at this
      rw [getTask, if_pos hkey] at h1
      rw [hpst] at h1
      have hc : cfg = c := by injection h1 with h3; injection h3
      have : findLeader (p :: rest) = some (p.1, cfg) := by
        cases p with
        | mk i st => simp only [findLeader]; rw [show st = TaskState.leader cfg from hpst]
      rw [this, hkey, hc]
    · have hkey : ¬ p.1 = l := by
        intro e
        rw [getTask, if_pos e] at h1
        rw [hpst] at h1
        cases h1
      rw [getTask, if_neg hkey] at h1
      have : findLeader (p :: rest) = findLeader rest := by
        cases p with
        | mk i st => simp only [findLeader]; rw [show st = TaskState.done r from hpst]
      rw [this]
      exact ih h1 (fun q hq hne => h2 q (List.mem_cons_of_mem p hq) hne)

theorem findLeader_mem (ts : List (Nat × TaskState)) (l : Nat) (c : Config)
    (h : findLeader ts = some (l, c)) : (l, TaskState.leader c) ∈ ts := by
  induction ts with
  | nil => simp [findLeader] at h
  | cons p rest ih =>
    cases p with
    | mk i st =>
      cases st with
      | leader cfg =>
        simp only [findLeader] at h
        have h1 : i = l ∧ cfg = c := by
          simpa only [Option.some.injEq, Prod.mk.injEq] using h
        rw [← h1.1, ← h1.2]
        exact List.mem_cons_self _ _
      | active cfg => simp only [findLeader] at h; exact List.mem_cons_of_mem _ (ih h)
      | queued cfg => simp only [findLeader] at h; exact List.mem_cons_of_mem _ (ih h)
      | done r => simp only [findLeader] at h; exact List.mem_cons_of_mem _ (ih h)

theorem getTask_of_mem (ts : List (Nat × TaskState)) (k : Nat) (v : TaskState)
    (h : keysNodup ts) (hm : (k, v) ∈ ts) : getTask ts k = some v := by
  induction ts with
  | nil => cases hm
  | cons p rest ih =>
    rcases List.mem_cons.mp hm with he | hmem
    · rw [← he]
      simp [getTask]
    · have hk : ¬ p.1 = k := by
        intro e
        have : k ∈ rest.map Prod.fst := List.mem_map.mpr ⟨(k, v), hmem, rfl⟩
        have hnd := (List.nodup_cons.mp h).1
        rw [e] at hnd
        exact hnd this
      rw [getTask, if_neg hk]
      exact ih (List.nodup_cons.mp h).2 hmem

theorem findLeader_getTask (ts : List (Nat × TaskState)) (l : Nat) (c : Config)
    (h : keysNodup ts) (hf : findLeader ts = some (l, c)) :
    getTask ts l = some (TaskState.leader c) :=
  getTask_of_mem ts l _ h (findLeader_mem ts l c hf)

theorem applyRequestInterceptor_of_token (st : List (String × String)) (c : Config)
    (t : String) (h : getItem st "token" = some t) (ht : t ≠ "") :
    applyRequestInterceptor st c = { c with auth := some ("Bearer " ++ t) } := by
  simp [applyRequestInterceptor, h, ht]

theorem applyRequestInterceptor_of_none (st : List (String × String)) (c : Config)
    (h : getItem st "token" = none) : applyRequestInterceptor st c = c := by
  simp [applyRequestInterceptor, h]

/-! ### Characterisation of the individual steps -/

theorem step_submit (s : Sys) (id : Nat) (h : getTask s.tasks id = none) :
    step s (Ev.submit id) = some { s with
      tasks := setTask s.tasks id (TaskState.active
        (applyRequestInterceptor s.store { retry := false, auth := none })) } := by
  simp [step, h]

theorem step_respondOk (s : Sys) (id : Nat) (cfg : Config)
    (h : getTask s.tasks id = some (TaskState.active cfg)) :
    step s (Ev.respondOk id) = some { s with
      tasks := setTask s.tasks id (TaskState.done (Outcome.ok cfg.auth)) } := by
  simp [step, h]

theorem step_respondErr_pass (s : Sys) (id : Nat) (cfg : Config) (status : Option Nat)
    (h : getTask s.tasks id = some (TaskState.active cfg))
    (hna : ¬ (status = some 401 ∧ cfg.retry = false)) :
    step s (Ev.respondErr id status) = some { s with
      tasks := setTask s.tasks id (TaskState.done
        (match status with
         | some n => Outcome.httpErr n
         | none => Outcome.netErr)) } := by
  cases status with
  | none => simp [step, h]
  | some n =>
    have hcond : ¬ (some n = some (401 : Nat) ∧ cfg.retry = false) := hna
    simp only [step, h]
    rw [if_neg hcond]

theorem step_respondErr_fresh401_idle (s : Sys) (id : Nat) (cfg : Config)
    (h : getTask s.tasks id = some (TaskState.active cfg))
    (hr : cfg.retry = false) (hf : s.refreshing = false) :
    step s (Ev.respondErr id (some 401)) = some { s with
      refreshing := true,
      refreshCalls := s.refreshCalls + 1,
      tasks := setTask s.tasks id (TaskState.leader { cfg with retry := true }) } := by
  simp [step, h, hr, hf]

theorem step_respondErr_fresh401_busy (s : Sys) (id : Nat) (cfg : Config)
    (h : getTask s.tasks id = some (TaskState.active cfg))
    (hr : cfg.retry = false) (hf : s.refreshing = true) :
    step s (Ev.respondErr id (some 401)) = some { s with
      queue := s.queue ++ [id],
      tasks := setTask s.tasks id (TaskState.queued { cfg with retry := true }) } := by
  simp [step, h, hr, hf]

theorem step_refreshOk (s : Sys) (lid : Nat) (lcfg : Config) (tok : String)
    (hf : findLeader s.tasks = some (lid, lcfg)) :
    step s (Ev.refreshOk tok) = some { s with
      store := setItem s.store "token" tok,
      tasks := setTask
        (resumeQueued (setItem s.store "token" tok) s.tasks s.queue) lid
        (TaskState.active (applyRequestInterceptor (setItem s.store "token" tok)
          { lcfg with auth := some ("Bearer " ++ tok) })),
      queue := [],
      refreshing := false } := by
  simp [step, hf]

theorem step_refreshErr (s : Sys) (lid : Nat) (lcfg : Config)
    (hf : findLeader s.tasks = some (lid, lcfg)) :
    step s Ev.refreshErr = some { s with
      store := [],
      navigatedHome := true,
      tasks := setTask (rejectQueued s.tasks s.queue) lid
        (TaskState.done Outcome.refreshFailed),
      queue := [],
      refreshing := false } := by
  simp [step, hf]

/-- Every step either leaves the flag and the queue unchanged, leaves the
flag raised, or ends with an empty queue: the case split behind the
queue-empty invariant. -/
theorem step_shape (s : Sys) (e : Ev) (s2 : Sys) (h : step s e = some s2) :
    (s2.refreshing = s.refreshing ∧ s2.queue = s.queue) ∨
      s2.refreshing = true ∨ s2.queue = [] := by
  cases e with
  | submit id =>
    simp only [step] at h
    rcases hg : getTask s.tasks id with _ | w
    · rw [hg] at h
      injection h with h2
      left; rw [← h2]; exact ⟨rfl, rfl⟩
    · rw [hg] at h; cases h
  | respondOk id =>
    simp only [step] at h
    rcases hg : getTask s.tasks id with _ | w
    · rw [hg] at h; cases h
    · cases w with
      | active cfg =>
        rw [hg] at h
        injection h with h2
        left; rw [← h2]; exact ⟨rfl, rfl⟩
      | queued cfg => rw [hg] at h; cases h
      | leader cfg => rw [hg] at h; cases h
      | done r => rw [hg] at h; cases h
  | respondErr id status =>
    rcases hg : getTask s.tasks id with _ | w
    · simp only [step, hg] at h; cases h
    · cases w with
      | active cfg =>
        simp only [step, hg] at h
        by_cases hc : status = some 401 ∧ cfg.retry = false
        · rw [if_pos hc] at h
          by_cases hb : s.refreshing = true
          · rw [if_pos hb] at h
            injection h with h2
            right; left; rw [← h2]; exact hb
          · rw [if_neg hb] at h
            injection h with h2
            right; left; rw [← h2]
        · rw [if_neg hc] at h
          injection h with h2
          left; rw [← h2]; exact ⟨rfl, rfl⟩
      | queued cfg => simp only [step, hg] at h; cases h
      | leader cfg => simp only [step, hg] at h; cases h
      | done r => simp only [step, hg] at h; cases h
  | refreshOk tok =>
    simp only [step] at h
    rcases hfl : findLeader s.tasks with _ | p
    · rw [hfl] at h; cases h
    · rw [hfl] at h
      injection h with h2
      right; right; rw [← h2]
  | refreshErr =>
    simp only [step] at h
    rcases hfl : findLeader s.tasks with _ | p
    · rw [hfl] at h; cases h
    · rw [hfl] at h
      injection h with h2
      right; right; rw [← h2]

/-- The queue-empty invariant (flag down implies empty queue) is preserved
along any run. -/
theorem run_queue_inv (evs : List Ev) (s0 s : Sys)
    (h0 : s0.refreshing = false → s0.queue = [])
    (hrun : run s0 evs = some s) :
    s.refreshing = false → s.queue = [] := by
  induction evs generalizing s0 with
  | nil =>
    cases hrun
    exact h0
  | cons e es ih =>
    simp only [run] at hrun
    rcases hs : step s0 e with _ | s1
    · rw [hs] at hrun; cases hrun
    · rw [hs] at hrun
      refine ih s1 ?_ hrun
      intro hf
      rcases step_shape s0 e s1 hs with ⟨h1, h2⟩ | h1 | h1
      · rw [h2]; exact h0 (h1 ▸ hf)
      · rw [h1] at hf; cases hf
      · exact h1

/-- While a refresh is in flight, a run of fresh 401 failures enqueues each
failing request in arrival order: no new refresh call is issued, the
storage and counters are untouched, and every other task is unchanged. -/
theorem enqueue_phase (rest : List Nat) : ∀ (s : Sys) (auths : Nat → Option String),
    s.refreshing = true →
    rest.Nodup →
    (∀ id ∈ rest, getTask s.tasks id =
      some (TaskState.active { retry := false, auth := auths id })) →
    ∃ s2, run s (rest.map fun i => Ev.respondErr i (some 401)) = some s2 ∧
      s2.refreshing = true ∧
      s2.store = s.store ∧
      s2.refreshCalls = s.refreshCalls ∧
      s2.queue = s.queue ++ rest ∧
      (∀ id ∈ rest, getTask s2.tasks id =
        some (TaskState.queued { retry := true, auth := auths id })) ∧
      (∀ j, j ∉ rest → getTask s2.tasks j = getTask s.tasks j) ∧
      (∀ p ∈ s2.tasks, p ∈ s.tasks ∨
        ∃ id, id ∈ rest ∧ p = (id, TaskState.queued { retry := true, auth := auths id })) ∧
      s2.tasks.map Prod.fst = s.tasks.map Prod.fst := by
  induction rest with
  | nil =>
    intro s auths href _ _
    exact ⟨s, rfl, href, rfl, rfl, by simp, by simp, fun j _ => rfl,
      fun p hp => Or.inl hp, rfl⟩
  | cons j rest ih =>
    intro s auths href hnd hact
    obtain ⟨hndj, hndr⟩ := List.nodup_cons.mp hnd
    have hj := hact j (List.mem_cons_self j rest)
    have hstep := step_respondErr_fresh401_busy s j _ hj rfl href
    have hact1 : ∀ id ∈ rest,
        getTask ({ s with
          queue := s.queue ++ [j],
          tasks := setTask s.tasks j
            (TaskState.queued { retry := true, auth := auths j }) } : Sys).tasks id =
          some (TaskState.active { retry := false, auth := auths id }) := by
      intro id hid
      have hne : j ≠ id := fun e => hndj (e ▸ hid)
      show getTask (setTask s.tasks j _) id = _
      rw [getTask_setTask_ne _ _ _ _ hne]
      exact hact id (List.mem_cons_of_mem j hid)
    obtain ⟨s2, hrun, h2ref, h2store, h2calls, h2queue, h2queued, h2other, h2mem, h2keys⟩ :=
      ih ({ s with
        queue := s.queue ++ [j],
        tasks := setTask s.tasks j
          (TaskState.queued { retry := true, auth := auths j }) } : Sys)
        auths href hndr hact1
    refine ⟨s2, ?_, h2ref, h2store, h2calls, ?_, ?_, ?_, ?_, ?_⟩
    · simp only [List.map_cons, run]
      rw [hstep]
      exact hrun
    · rw [h2queue]
      show (s.queue ++ [j]) ++ rest = s.queue ++ j :: rest
      simp
    · intro id hid
      rcases List.mem_cons.mp hid with he | hmem
      · subst he
        rw [h2other id hndj]
        exact getTask_setTask_self ..
      · exact h2queued id hmem
    · intro j2 hj2
      have hj2r : j2 ∉ rest := fun m => hj2 (List.mem_cons_of_mem j m)
      have hj2j : j ≠ j2 := fun e => hj2 (e ▸ List.mem_cons_self j rest)
      rw [h2other j2 hj2r]
      exact getTask_setTask_ne _ _ _ _ hj2j
    · intro p hp
      rcases h2mem p hp with hmem | ⟨id, hid, he⟩
      · rcases mem_setTask _ _ _ _ hmem with hmem2 | he2
        · exact Or.inl hmem2
        · exact Or.inr ⟨j, List.mem_cons_self j rest, he2⟩
      · exact Or.inr ⟨id, List.mem_cons_of_mem j hid, he⟩
    · rw [h2keys]
      exact keys_setTask s.tasks j _ _ hj

/-! ## Claim theorems -/

/-- C1: single-flight refresh — starting with no refresh active, no waiters
and no refresher task, when each of N ≥ 1 distinct in-flight requests fails
with 401 (in any arrival order, modelled by the list) and the refresh call
then succeeds with a nonempty token, exactly one refresh call has been
issued in total, and every one of the N requests has been re-dispatched
carrying the credential that refresh produced. -/
theorem C1_single_flight (s : Sys) (ids : List Nat) (tok : String)
    (auths : Nat → Option String)
    (hne : ids ≠ []) (hnd : ids.Nodup)
    (href : s.refreshing = false) (_hq : s.queue = [])
    (hnl : ∀ p ∈ s.tasks, isLeaderState p.2 = false)
    (hact : ∀ id ∈ ids, getTask s.tasks id =
      some (TaskState.active { retry := false, auth := auths id }))
    (htok : tok ≠ "") :
    ∃ s2, run s ((ids.map fun i => Ev.respondErr i (some 401)) ++ [Ev.refreshOk tok]) =
        some s2 ∧
      s2.refreshCalls = s.refreshCalls + 1 ∧
      s2.refreshing = false ∧
      s2.queue = [] ∧
      ∀ id ∈ ids, getTask s2.tasks id =
        some (TaskState.active { retry := true, auth := some ("Bearer " ++ tok) }) := by
  cases ids with
  | nil => exact absurd rfl hne
  | cons id0 rest =>
    obtain ⟨hnd0, hndr⟩ := List.nodup_cons.mp hnd
    have hact0 := hact id0 (List.mem_cons_self id0 rest)
    have hstep0 : step s (Ev.respondErr id0 (some 401)) = some { s with
        refreshing := true,
        refreshCalls := s.refreshCalls + 1,
        tasks := setTask s.tasks id0
          (TaskState.leader { retry := true, auth := auths id0 }) } :=
      step_respondErr_fresh401_idle s id0 _ hact0 rfl href
    have hact1 : ∀ id ∈ rest, getTask ({ s with
        refreshing := true,
        refreshCalls := s.refreshCalls + 1,
        tasks := setTask s.tasks id0
          (TaskState.leader { retry := true, auth := auths id0 }) } : Sys).tasks id =
        some (TaskState.active { retry := false, auth := auths id }) := by
      intro id hid
      have hne0 : id0 ≠ id := fun e => hnd0 (e ▸ hid)
      show getTask (setTask s.tasks id0 _) id = _
      rw [getTask_setTask_ne _ _ _ _ hne0]
      exact hact id (List.mem_cons_of_mem id0 hid)
    obtain ⟨s2, hrun2, h2ref, h2store, h2calls, h2queue, h2queued, h2other, h2mem, h2keys⟩ :=
      enqueue_phase rest ({ s with
        refreshing := true,
        refreshCalls := s.refreshCalls + 1,
        tasks := setTask s.tasks id0
          (TaskState.leader { retry := true, auth := auths id0 }) } : Sys)
        auths rfl hndr hact1
    have hlead2 : getTask s2.tasks id0 =
        some (TaskState.leader { retry := true, auth := auths id0 }) := by
      rw [h2other id0 hnd0]
      exact getTask_setTask_self ..
    have hnl2 : ∀ p ∈ s2.tasks, p.1 ≠ id0 → isLeaderState p.2 = false := by
      intro p hp hne0
      rcases h2mem p hp with hmem | ⟨id, _, he⟩
      · rcases mem_setTask _ _ _ _ hmem with hmem2 | he2
        · exact hnl p hmem2
        · exact absurd (congrArg Prod.fst he2) hne0
      · rw [he]; rfl
    have hfl2 : findLeader s2.tasks = some (id0, { retry := true, auth := auths id0 }) :=
      findLeader_eq s2.tasks id0 _ hlead2 hnl2
    have hstep3 : step s2 (Ev.refreshOk tok) = some { s2 with
        store := setItem s2.store "token" tok,
        tasks := setTask (resumeQueued (setItem s2.store "token" tok) s2.tasks s2.queue) id0
          (TaskState.active (applyRequestInterceptor (setItem s2.store "token" tok)
            { retry := true, auth := some ("Bearer " ++ tok) })),
        queue := [],
        refreshing := false } :=
      step_refreshOk s2 id0 _ tok hfl2
    have hruntot : run s (((id0 :: rest).map fun i => Ev.respondErr i (some 401)) ++
        [Ev.refreshOk tok]) = some ({ s2 with
          store := setItem s2.store "token" tok,
          tasks := setTask (resumeQueued (setItem s2.store "token" tok) s2.tasks s2.queue) id0
            (TaskState.active (applyRequestInterceptor (setItem s2.store "token" tok)
              { retry := true, auth := some ("Bearer " ++ tok) })),
          queue := [],
          refreshing := false } : Sys) := by
      rw [List.map_cons, List.cons_append, run_cons_some _ _ _ _ hstep0,
        run_append, hrun2]
      show run s2 [Ev.refreshOk tok] = _
      rw [run_cons_some _ _ _ _ hstep3]
      rfl
    refine ⟨_, hruntot, h2calls, rfl, rfl, ?_⟩
    intro id hid
    rcases List.mem_cons.mp hid with he | hid2
    · subst he
      show getTask (setTask _ id _) id = _
      rw [getTask_setTask_self,
        applyRequestInterceptor_of_token _ _ tok (getItem_setItem_self ..) htok]
    · have hne0 : id0 ≠ id := fun e => hnd0 (e ▸ hid2)
      show getTask (setTask _ id0 _) id = _
      rw [getTask_setTask_ne _ _ _ _ hne0]
      have hq2 := h2queued id hid2
      have hmemq : id ∈ s2.queue := by
        rw [h2queue]
        exact List.mem_append_right _ hid2
      rw [getTask_resumeQueued_queued _ _ _ _ _ hq2 hmemq,
        applyRequestInterceptor_of_token _ _ tok (getItem_setItem_self ..) htok]

theorem C1_single_flight_witness :
    run sysIdle (([0, 1, 2].map fun i => Ev.respondErr i (some 401)) ++
        [Ev.refreshOk "T2"]) = some sysIdleRefreshed ∧
    sysIdleRefreshed.refreshCalls = sysIdle.refreshCalls + 1 ∧
    sysIdleRefreshed.refreshing = false ∧
    sysIdleRefreshed.queue = [] ∧
    getTask sysIdleRefreshed.tasks 0 =
      some (TaskState.active { retry := true, auth := some ("Bearer " ++ "T2") }) ∧
    getTask sysIdleRefreshed.tasks 1 =
      some (TaskState.active { retry := true, auth := some ("Bearer " ++ "T2") }) ∧
    getTask sysIdleRefreshed.tasks 2 =
      some (TaskState.active { retry := true, auth := some ("Bearer " ++ "T2") }) := by
  obtain ⟨s2, hrun, hcalls, hrefr, hqueue, hall⟩ :=
    C1_single_flight sysIdle [0, 1, 2] "T2" (fun _ => some "Bearer T1")
      (by decide) (by decide) rfl rfl (by decide) (by decide) (by decide)
  have hs2 : s2 = sysIdleRefreshed := by
    have h2 : run sysIdle (([0, 1, 2].map fun i => Ev.respondErr i (some 401)) ++
        [Ev.refreshOk "T2"]) = some sysIdleRefreshed := by decide
    rw [hrun] at h2
    injection h2
  subst hs2
  exact ⟨hrun, hcalls, hrefr, hqueue, hall 0 (by decide), hall 1 (by decide),
    hall 2 (by decide)⟩

/-- C2: a request failing with 401 while a refresh is already in flight is
enqueued without issuing its own refresh call, and while it is queued every
event other than the settlement of that refresh leaves it suspended; when
the refresh settles successfully with a nonempty token the request is
re-dispatched carrying that refresh's credential (never the stale one), and
when the refresh fails it is rejected with the refresh failure. -/
theorem C2_stale_credential_exclusion :
    (∀ s id cfg, getTask s.tasks id = some (TaskState.active cfg) → cfg.retry = false →
       s.refreshing = true →
       ∃ s2, step s (Ev.respondErr id (some 401)) = some s2 ∧
         s2.refreshCalls = s.refreshCalls ∧
         s2.refreshing = true ∧
         s2.queue = s.queue ++ [id] ∧
         getTask s2.tasks id = some (TaskState.queued { cfg with retry := true })) ∧
    (∀ s id cfg, keysNodup s.tasks →
       getTask s.tasks id = some (TaskState.queued cfg) → id ∈ s.queue →
       (∀ e s2, step s e = some s2 → (∀ t, e ≠ Ev.refreshOk t) → e ≠ Ev.refreshErr →
          getTask s2.tasks id = some (TaskState.queued cfg)) ∧
       (∀ tok s2, tok ≠ "" → step s (Ev.refreshOk tok) = some s2 →
          getTask s2.tasks id =
            some (TaskState.active { cfg with auth := some ("Bearer " ++ tok) })) ∧
       (∀ s2, step s Ev.refreshErr = some s2 →
          getTask s2.tasks id = some (TaskState.done Outcome.refreshFailed))) := by
  constructor
  · intro s id cfg hact hr href
    exact ⟨_, step_respondErr_fresh401_busy s id cfg hact hr href, rfl, href, rfl,
      getTask_setTask_self ..⟩
  · intro s id cfg hwf hq hmem
    refine ⟨?_, ?_, ?_⟩
    · intro e s2 hstep hnok hnerr
      cases e with
      | submit j =>
        simp only [step] at hstep
        rcases hg : getTask s.tasks j with _ | w
        · rw [hg] at hstep
          injection hstep with h2
          rw [← h2]
          have hne : j ≠ id := by
            intro e; rw [e] at hg; rw [hg] at hq; cases hq
          show getTask (setTask s.tasks j _) id = _
          rw [getTask_setTask_ne _ _ _ _ hne]
          exact hq
        · rw [hg] at hstep; cases hstep
      | respondOk j =>
        rcases hg : getTask s.tasks j with _ | w
        · simp only [step, hg] at hstep; cases hstep
        · cases w with
          | active cfg2 =>
            simp only [step, hg] at hstep
            injection hstep with h2
            rw [← h2]
            have hne : j ≠ id := by
              intro e; rw [e] at hg; rw [hg] at hq
              injection hq with h3; cases h3
            show getTask (setTask s.tasks j _) id = _
            rw [getTask_setTask_ne _ _ _ _ hne]
            exact hq
          | queued cfg2 => simp only [step, hg] at hstep; cases hstep
          | leader cfg2 => simp only [step, hg] at hstep; cases hstep
          | done r => simp only [step, hg] at hstep; cases hstep
      | respondErr j status =>
        rcases hg : getTask s.tasks j with _ | w
        · simp only [step, hg] at hstep; cases hstep
        · cases w with
          | active cfg2 =>
            simp only [step, hg] at hstep
            have hne : j ≠ id := by
              intro e; rw [e] at hg; rw [hg] at hq
              injection hq with h3; cases h3
            by_cases hc : status = some 401 ∧ cfg2.retry = false
            · rw [if_pos hc] at hstep
              by_cases hb : s.refreshing = true
              · rw [if_pos hb] at hstep
                injection hstep with h2
                rw [← h2]
                show getTask (setTask s.tasks j _) id = _
                rw [getTask_setTask_ne _ _ _ _ hne]
                exact hq
              · rw [if_neg hb] at hstep
                injection hstep with h2
                rw [← h2]
                show getTask (setTask s.tasks j _) id = _
                rw [getTask_setTask_ne _ _ _ _ hne]
                exact hq
            · rw [if_neg hc] at hstep
              injection hstep with h2
              rw [← h2]
              show getTask (setTask s.tasks j _) id = _
              rw [getTask_setTask_ne _ _ _ _ hne]
              exact hq
          | queued cfg2 => simp only [step, hg] at hstep; cases hstep
          | leader cfg2 => simp only [step, hg] at hstep; cases hstep
          | done r => simp only [step, hg] at hstep; cases hstep
      | refreshOk t => exact absurd rfl (hnok t)
      | refreshErr => exact absurd rfl hnerr
    · intro tok s2 htok hstep
      simp only [step] at hstep
      rcases hfl : findLeader s.tasks with _ | p
      · rw [hfl] at hstep; cases hstep
      · obtain ⟨lid, lcfg⟩ := p
        rw [hfl] at hstep
        injection hstep with h2
        rw [← h2]
        have hlid := findLeader_getTask s.tasks lid lcfg hwf hfl
        have hne : lid ≠ id := by
          intro e; rw [e] at hlid; rw [hlid] at hq
          injection hq with h3; cases h3
        show getTask (setTask _ lid _) id = _
        rw [getTask_setTask_ne _ _ _ _ hne,
          getTask_resumeQueued_queued _ _ _ _ _ hq hmem,
          applyRequestInterceptor_of_token _ _ tok (getItem_setItem_self ..) htok]
    · intro s2 hstep
      simp only [step] at hstep
      rcases hfl : findLeader s.tasks with _ | p
      · rw [hfl] at hstep; cases hstep
      · obtain ⟨lid, lcfg⟩ := p
        rw [hfl] at hstep
        injection hstep with h2
        rw [← h2]
        have hlid := findLeader_getTask s.tasks lid lcfg hwf hfl
        have hne : lid ≠ id := by
          intro e; rw [e] at hlid; rw [hlid] at hq
          injection hq with h3; cases h3
        show getTask (setTask _ lid _) id = _
        rw [getTask_setTask_ne _ _ _ _ hne]
        exact getTask_rejectQueued_queued _ _ _ _ hq hmem

theorem C2_stale_credential_exclusion_witness :
    (∃ s2, step sysRefreshing (Ev.respondErr 1 (some 401)) = some s2 ∧
       s2.refreshCalls = sysRefreshing.refreshCalls ∧
       s2.refreshing = true ∧
       s2.queue = sysRefreshing.queue ++ [1] ∧
       getTask s2.tasks 1 =
         some (TaskState.queued { retry := true, auth := some "Bearer T1" })) ∧
    (∀ s2, step sysQueued (Ev.refreshOk "T2") = some s2 →
       getTask s2.tasks 1 =
         some (TaskState.active { retry := true, auth := some ("Bearer " ++ "T2") })) := by
  constructor
  · exact C2_stale_credential_exclusion.1 sysRefreshing 1
      { retry := false, auth := some "Bearer T1" } (by decide) rfl rfl
  · intro s2 hstep
    exact (C2_stale_credential_exclusion.2 sysQueued 1
      { retry := true, auth := some "Bearer T1" } (by decide) (by decide)
      (by decide)).2.1 "T2" s2 (by decide) hstep

/-- C3: drain before reset — in the atomic settlement step of a refresh
(success or failure) the flag goes down only together with a complete drain:
whenever a step lowers the refresh flag, the post-state queue is empty and
every waiter that was queued has been resolved (re-dispatched) or rejected
in that same step; moreover, along every run from a quiescent state, whenever
the flag is observed down (the only situation in which a new refresh
generation can start) the queue is empty. -/
theorem C3_drain_before_reset :
    (∀ s e s2, step s e = some s2 → s.refreshing = true → s2.refreshing = false →
       s2.queue = [] ∧
       (∀ id ∈ s.queue, ∀ c, getTask s.tasks id = some (TaskState.queued c) →
         (∃ c2, getTask s2.tasks id = some (TaskState.active c2)) ∨
           getTask s2.tasks id = some (TaskState.done Outcome.refreshFailed))) ∧
    (∀ s0 evs s, s0.refreshing = false → s0.queue = [] → run s0 evs = some s →
       s.refreshing = false → s.queue = []) := by
  constructor
  · intro s e s2 hstep hup hdown
    cases e with
    | submit id =>
      simp only [step] at hstep
      rcases hg : getTask s.tasks id with _ | w
      · rw [hg] at hstep
        injection hstep with h2
        have hcontra : s2.refreshing = true := by rw [← h2]; exact hup
        rw [hcontra] at hdown; cases hdown
      · rw [hg] at hstep; cases hstep
    | respondOk id =>
      rcases hg : getTask s.tasks id with _ | w
      · simp only [step, hg] at hstep; cases hstep
      · cases w with
        | active cfg =>
          simp only [step, hg] at hstep
          injection hstep with h2
          have hcontra : s2.refreshing = true := by rw [← h2]; exact hup
          rw [hcontra] at hdown; cases hdown
        | queued cfg => simp only [step, hg] at hstep; cases hstep
        | leader cfg => simp only [step, hg] at hstep; cases hstep
        | done r => simp only [step, hg] at hstep; cases hstep
    | respondErr id status =>
      rcases hg : getTask s.tasks id with _ | w
      · simp only [step, hg] at hstep; cases hstep
      · cases w with
        | active cfg =>
          simp only [step, hg] at hstep
          by_cases hc : status = some 401 ∧ cfg.retry = false
          · rw [if_pos hc] at hstep
            by_cases hb : s.refreshing = true
            · rw [if_pos hb] at hstep
              injection hstep with h2
              have hcontra : s2.refreshing = true := by rw [← h2]; exact hup
              rw [hcontra] at hdown; cases hdown
            · exact absurd hup hb
          · rw [if_neg hc] at hstep
            injection hstep with h2
            have hcontra : s2.refreshing = true := by rw [← h2]; exact hup
            rw [hcontra] at hdown; cases hdown
        | queued cfg => simp only [step, hg] at hstep; cases hstep
        | leader cfg => simp only [step, hg] at hstep; cases hstep
        | done r => simp only [step, hg] at hstep; cases hstep
    | refreshOk tok =>
      simp only [step] at hstep
      rcases hfl : findLeader s.tasks with _ | p
      · rw [hfl] at hstep; cases hstep
      · obtain ⟨lid, lcfg⟩ := p
        rw [hfl] at hstep
        injection hstep with h2
        constructor
        · rw [← h2]
        · intro id hidq c hidt
          rw [← h2]
          by_cases hlidid : lid = id
          · subst hlidid
            exact Or.inl ⟨_, getTask_setTask_self ..⟩
          · left
            have hres := getTask_resumeQueued_queued
              (setItem s.store "token" tok) s.queue s.tasks id c hidt hidq
            refine ⟨applyRequestInterceptor (setItem s.store "token" tok) c, ?_⟩
            show getTask (setTask _ lid _) id = _
            rw [getTask_setTask_ne _ _ _ _ hlidid]
            exact hres
    | refreshErr =>
      simp only [step] at hstep
      rcases hfl : findLeader s.tasks with _ | p
      · rw [hfl] at hstep; cases hstep
      · obtain ⟨lid, lcfg⟩ := p
        rw [hfl] at hstep
        injection hstep with h2
        constructor
        · rw [← h2]
        · intro id hidq c hidt
          rw [← h2]
          by_cases hlidid : lid = id
          · subst hlidid
            exact Or.inr (getTask_setTask_self ..)
          · right
            show getTask (setTask _ lid _) id = _
            rw [getTask_setTask_ne _ _ _ _ hlidid]
            exact getTask_rejectQueued_queued _ _ _ _ hidt hidq
  · intro s0 evs s h0 hq0 hrun
    exact run_queue_inv evs s0 s (fun _ => hq0) hrun

theorem C3_drain_before_reset_witness :
    (sysQueuedFailed.queue = [] ∧
      ((∃ c2, getTask sysQueuedFailed.tasks 1 = some (TaskState.active c2)) ∨
        getTask sysQueuedFailed.tasks 1 = some (TaskState.done Outcome.refreshFailed))) ∧
    sysIdleDone.queue = [] := by
  refine ⟨⟨?_, ?_⟩, ?_⟩
  · exact (C3_drain_before_reset.1 sysQueued Ev.refreshErr sysQueuedFailed
      (by decide) rfl rfl).1
  · exact (C3_drain_before_reset.1 sysQueued Ev.refreshErr sysQueuedFailed
      (by decide) rfl rfl).2 1 (by decide)
      { retry := true, auth := some "Bearer T1" } (by decide)
  · exact C3_drain_before_reset.2 sysIdle [Ev.submit 5, Ev.respondOk 5] sysIdleDone
      rfl rfl (by decide) rfl

/-- C4: one-shot retry — a request whose per-request retry marker is already
set and which receives another 401 does not trigger another refresh cycle
(flag, queue, refresh-call count and storage are untouched) and the second
401 propagates directly to the caller as a failure. -/
theorem C4_one_shot_retry (s : Sys) (id : Nat) (cfg : Config)
    (h : getTask s.tasks id = some (TaskState.active cfg)) (hr : cfg.retry = true) :
    ∃ s2, step s (Ev.respondErr id (some 401)) = some s2 ∧
      getTask s2.tasks id = some (TaskState.done (Outcome.httpErr 401)) ∧
      s2.refreshCalls = s.refreshCalls ∧
      s2.refreshing = s.refreshing ∧
      s2.queue = s.queue ∧
      s2.store = s.store := by
  have hna : ¬ (some (401 : Nat) = some 401 ∧ cfg.retry = false) := by simp [hr]
  refine ⟨_, step_respondErr_pass s id cfg (some 401) h hna, ?_, rfl, rfl, rfl, rfl⟩
  exact getTask_setTask_self ..

theorem C4_one_shot_retry_witness :
    ∃ s2, step sysRetried (Ev.respondErr 0 (some 401)) = some s2 ∧
      getTask s2.tasks 0 = some (TaskState.done (Outcome.httpErr 401)) ∧
      s2.refreshCalls = sysRetried.refreshCalls ∧
      s2.refreshing = sysRetried.refreshing ∧
      s2.queue = sysRetried.queue ∧
      s2.store = sysRetried.store :=
  C4_one_shot_retry sysRetried 0 { retry := true, auth := some "Bearer T2" }
    (by decide) rfl

/-- C5: refresh-failure cleanup — when the refresh call fails with K waiters
queued, every waiter is rejected with the refresh failure (none stays
queued), the queue is cleared, the whole storage (hence the Session
Credential) is removed so that a subsequent send attaches no Authorization
header, the forced navigation to the entry point occurs, and the refresher
request's caller receives the refresh failure. -/
theorem C5_refresh_failure_cleanup (s : Sys) (lid : Nat) (lcfg : Config)
    (cfgs : Nat → Config)
    (hwf : keysNodup s.tasks)
    (hfl : findLeader s.tasks = some (lid, lcfg))
    (hq : ∀ id ∈ s.queue, getTask s.tasks id = some (TaskState.queued (cfgs id))) :
    ∃ s2, step s Ev.refreshErr = some s2 ∧
      (∀ id ∈ s.queue, getTask s2.tasks id = some (TaskState.done Outcome.refreshFailed)) ∧
      s2.queue = [] ∧
      s2.store = [] ∧
      getItem s2.store "token" = none ∧
      s2.navigatedHome = true ∧
      getTask s2.tasks lid = some (TaskState.done Outcome.refreshFailed) ∧
      (∀ fid, getTask s2.tasks fid = none →
        ∃ s3, step s2 (Ev.submit fid) = some s3 ∧
          getTask s3.tasks fid = some (TaskState.active { retry := false, auth := none })) := by
  have hlid := findLeader_getTask s.tasks lid lcfg hwf hfl
  refine ⟨_, step_refreshErr s lid lcfg hfl, ?_, rfl, rfl, rfl, rfl, ?_, ?_⟩
  · intro id hid
    have hidt := hq id hid
    have hne : lid ≠ id := by
      intro e; rw [e] at hlid; rw [hlid] at hidt
      injection hidt with h3; cases h3
    show getTask (setTask _ lid _) id = _
    rw [getTask_setTask_ne _ _ _ _ hne]
    exact getTask_rejectQueued_queued _ _ _ _ hidt hid
  · exact getTask_setTask_self ..
  · intro fid hfid
    refine ⟨_, step_submit _ fid hfid, ?_⟩
    show getTask (setTask _ fid _) fid = _
    rw [getTask_setTask_self]
    rfl

theorem C5_refresh_failure_cleanup_witness :
    getTask sysQueuedFailed.tasks 1 = some (TaskState.done Outcome.refreshFailed) ∧
    sysQueuedFailed.queue = [] ∧
    sysQueuedFailed.store = [] ∧
    getItem sysQueuedFailed.store "token" = none ∧
    sysQueuedFailed.navigatedHome = true ∧
    getTask sysQueuedFailed.tasks 0 = some (TaskState.done Outcome.refreshFailed) ∧
    (∃ s3, step sysQueuedFailed (Ev.submit 9) = some s3 ∧
      getTask s3.tasks 9 = some (TaskState.active { retry := false, auth := none })) := by
  obtain ⟨s2, hstep, hwaiters, hqueue, hstore, htok, hnav, hlid, hsend⟩ :=
    C5_refresh_failure_cleanup sysQueued 0 { retry := true, auth := some "Bearer T1" }
      (fun _ => { retry := true, auth := some "Bearer T1" })
      (by decide) (by decide) (by decide)
  have hs2 : s2 = sysQueuedFailed := by
    have h2 : step sysQueued Ev.refreshErr = some sysQueuedFailed := by decide
    rw [hstep] at h2
    injection h2
  subst hs2
  exact ⟨hwaiters 1 (by decide), hqueue, hstore, htok, hnav, hlid, hsend 9 (by decide)⟩

/-- C6: network-failure and non-401 passthrough — a failed request whose
failure carries no HTTP response, and likewise one whose status is not 401,
never enters the refresh protocol: the flag, queue, refresh-call count and
storage are untouched and the failure propagates unchanged to the caller. -/
theorem C6_passthrough :
    (∀ s id cfg, getTask s.tasks id = some (TaskState.active cfg) →
       ∃ s2, step s (Ev.respondErr id none) = some s2 ∧
         getTask s2.tasks id = some (TaskState.done Outcome.netErr) ∧
         s2.refreshCalls = s.refreshCalls ∧
         s2.refreshing = s.refreshing ∧
         s2.queue = s.queue ∧
         s2.store = s.store) ∧
    (∀ s id cfg n, n ≠ 401 → getTask s.tasks id = some (TaskState.active cfg) →
       ∃ s2, step s (Ev.respondErr id (some n)) = some s2 ∧
         getTask s2.tasks id = some (TaskState.done (Outcome.httpErr n)) ∧
         s2.refreshCalls = s.refreshCalls ∧
         s2.refreshing = s.refreshing ∧
         s2.queue = s.queue ∧
         s2.store = s.store) := by
  constructor
  · intro s id cfg h
    refine ⟨_, step_respondErr_pass s id cfg none h (by simp), ?_, rfl, rfl, rfl, rfl⟩
    exact getTask_setTask_self ..
  · intro s id cfg n hn h
    have hna : ¬ (some n = some (401 : Nat) ∧ cfg.retry = false) := by simp [hn]
    refine ⟨_, step_respondErr_pass s id cfg (some n) h hna, ?_, rfl, rfl, rfl, rfl⟩
    exact getTask_setTask_self ..

theorem C6_passthrough_witness :
    (∃ s2, step sysIdle (Ev.respondErr 0 none) = some s2 ∧
       getTask s2.tasks 0 = some (TaskState.done Outcome.netErr) ∧
       s2.refreshCalls = sysIdle.refreshCalls ∧
       s2.refreshing = sysIdle.refreshing ∧
       s2.queue = sysIdle.queue ∧
       s2.store = sysIdle.store) ∧
    (∃ s2, step sysIdle (Ev.respondErr 1 (some 500)) = some s2 ∧
       getTask s2.tasks 1 = some (TaskState.done (Outcome.httpErr 500)) ∧
       s2.refreshCalls = sysIdle.refreshCalls ∧
       s2.refreshing = sysIdle.refreshing ∧
       s2.queue = sysIdle.queue ∧
       s2.store = sysIdle.store) :=
  ⟨C6_passthrough.1 sysIdle 0 { retry := false, auth := some "Bearer T1" } (by decide),
   C6_passthrough.2 sysIdle 1 { retry := false, auth := some "Bearer T1" }
     500 (by decide) (by decide)⟩

/-- C7: credential attachment — the request interceptor attaches
`Authorization: Bearer <token>` exactly when a (nonempty) Session Credential
is stored, and leaves a fresh request without an Authorization header when
no credential is stored; accordingly a fresh send is dispatched with the
bearer header in the first case and without one in the second. -/
theorem C7_credential_attachment :
    (∀ st cfg t, getItem st "token" = some t → t ≠ "" →
       applyRequestInterceptor st cfg = { cfg with auth := some ("Bearer " ++ t) }) ∧
    (∀ st cfg, getItem st "token" = none → applyRequestInterceptor st cfg = cfg) ∧
    (∀ s id t, getTask s.tasks id = none → getItem s.store "token" = some t → t ≠ "" →
       ∃ s2, step s (Ev.submit id) = some s2 ∧
         getTask s2.tasks id =
           some (TaskState.active { retry := false, auth := some ("Bearer " ++ t) })) ∧
    (∀ s id, getTask s.tasks id = none → getItem s.store "token" = none →
       ∃ s2, step s (Ev.submit id) = some s2 ∧
         getTask s2.tasks id = some (TaskState.active { retry := false, auth := none })) := by
  refine ⟨applyRequestInterceptor_of_token, applyRequestInterceptor_of_none, ?_, ?_⟩
  · intro s id t htask htok hne
    refine ⟨_, step_submit s id htask, ?_⟩
    show getTask (setTask _ id _) id = _
    rw [getTask_setTask_self,
      applyRequestInterceptor_of_token _ _ t htok hne]
  · intro s id htask htok
    refine ⟨_, step_submit s id htask, ?_⟩
    show getTask (setTask _ id _) id = _
    rw [getTask_setTask_self, applyRequestInterceptor_of_none _ _ htok]

theorem C7_credential_attachment_witness :
    applyRequestInterceptor storeT1 { retry := false, auth := none } =
      { retry := false, auth := some ("Bearer " ++ "T1") } ∧
    applyRequestInterceptor [] { retry := false, auth := none } =
      { retry := false, auth := none } ∧
    (∃ s2, step sysIdle (Ev.submit 9) = some s2 ∧
       getTask s2.tasks 9 =
         some (TaskState.active { retry := false, auth := some ("Bearer " ++ "T1") })) ∧
    (∃ s2, step sysNoToken (Ev.submit 9) = some s2 ∧
       getTask s2.tasks 9 = some (TaskState.active { retry := false, auth := none })) :=
  ⟨C7_credential_attachment.1 storeT1 _ "T1" (by decide) (by decide),
   C7_credential_attachment.2.1 [] _ (by decide),
   C7_credential_attachment.2.2.1 sysIdle 9 "T1" (by decide) (by decide) (by decide),
   C7_credential_attachment.2.2.2 sysNoToken 9 (by decide) (by decide)⟩

/-- C9: full-storage wipe on refresh failure — when the refresh call fails,
the gateway clears the whole client-side storage: not only the token key but
also the authenticated flag, the expires-at hint written at login, and every
other key. -/
theorem C9_full_storage_wipe (s : Sys) (st0 : List (String × String))
    (tok expiresAt : String) (lid : Nat) (lcfg : Config)
    (hfl : findLeader s.tasks = some (lid, lcfg))
    (_hst : s.store = loginWrites st0 tok expiresAt) :
    ∃ s2, step s Ev.refreshErr = some s2 ∧
      s2.store = [] ∧
      getItem s2.store "token" = none ∧
      getItem s2.store "authenticated" = none ∧
      getItem s2.store "expires_at" = none ∧
      (∀ k, getItem s2.store k = none) :=
  ⟨_, step_refreshErr s lid lcfg hfl, rfl, rfl, rfl, rfl, fun _ => rfl⟩

theorem C9_full_storage_wipe_witness :
    sysLoggedCleared.store = [] ∧
    getItem sysLoggedCleared.store "token" = none ∧
    getItem sysLoggedCleared.store "authenticated" = none ∧
    getItem sysLoggedCleared.store "expires_at" = none ∧
    getItem sysLoggedCleared.store "someOtherKey" = none := by
  obtain ⟨s2, hstep, hstore, ht, ha, he, hall⟩ :=
    C9_full_storage_wipe sysLoggedLeader [] "T1" "1700" 0
      { retry := true, auth := some "Bearer T1" } (by decide) (by decide)
  have hs2 : s2 = sysLoggedCleared := by
    have h2 : step sysLoggedLeader Ev.refreshErr = some sysLoggedCleared := by decide
    rw [hstep] at h2
    injection h2
  subst hs2
  exact ⟨hstore, ht, ha, he, hall "someOtherKey"⟩

/-- C8: expiry-inspector correctness and totality — `parseJwtExpMs` is a
total function (no error ever escapes to the caller) which returns the
sentinel 0 on an empty token, on a token with no dot separator, on a
payload segment that does not decode as forgiving base64 after the URL-safe
normalisation, on a payload that is not valid JSON, and on structured data
lacking an `exp` field; and returns `exp * 1000` whenever the second
segment decodes to a structured record with a numeric `exp` field. -/
theorem C8_expiry_inspector :
    parseJwtExpMs [] = JsNum.num 0 ∧
    (∀ t : List Char, '.' ∉ t → parseJwtExpMs t = JsNum.num 0) ∧
    (∀ t part, (splitOnChar '.' t)[1]? = some part →
       atob (normalizeB64url part) = none → parseJwtExpMs t = JsNum.num 0) ∧
    (∀ t part bytes, (splitOnChar '.' t)[1]? = some part →
       atob (normalizeB64url part) = some bytes →
       jsonParse bytes = none → parseJwtExpMs t = JsNum.num 0) ∧
    (∀ t part bytes v, (splitOnChar '.' t)[1]? = some part →
       atob (normalizeB64url part) = some bytes →
       jsonParse bytes = some v →
       getField v expKey = none → parseJwtExpMs t = JsNum.num 0) ∧
    (∀ t part bytes v e, (splitOnChar '.' t)[1]? = some part →
       atob (normalizeB64url part) = some bytes →
       jsonParse bytes = some v →
       getField v expKey = some (JsVal.num e) →
       parseJwtExpMs t = JsNum.num (e * 1000)) := by
  refine ⟨rfl, ?_, ?_, ?_, ?_, ?_⟩
  · intro t hdot
    have hsplit := splitOnChar_of_not_mem '.' t hdot
    simp [parseJwtExpMs, decodeJwtPayload, hsplit]
  · intro t part h1 h2
    simp only [parseJwtExpMs, decodeJwtPayload, h1]
    by_cases hp : part = []
    · simp [hp]
    · simp [hp, h2]
  · intro t part bytes h1 h2 h3
    simp only [parseJwtExpMs, decodeJwtPayload, h1]
    by_cases hp : part = []
    · simp [hp]
    · simp [hp, h2, h3]
  · intro t part bytes v h1 h2 h3 h4
    simp only [parseJwtExpMs, decodeJwtPayload, h1]
    by_cases hp : part = []
    · simp [hp]
    · simp [hp, h2, h3, h4]
  · intro t part bytes v e h1 h2 h3 h4
    simp only [parseJwtExpMs, decodeJwtPayload, h1]
    by_cases hp : part = []
    · exfalso
      rw [hp] at h2
      have hb : atob (normalizeB64url []) = some [] := rfl
      rw [hb] at h2
      injection h2 with hbytes
      rw [← hbytes] at h3
      have hnone : jsonParse ([] : List Nat) = none := rfl
      rw [hnone] at h3
      cases h3
    · simp [hp, h2, h3, h4, jsToNumber, jsNumMul1000]

/-- C10: the expiry inspector ignores every segment except the second — no
signature or header validation and no requirement of exactly three
segments: whatever the other segments contain, and however many there are,
if the second dot-separated segment base64url-decodes to JSON with a
numeric `exp` field the result is `exp * 1000`. -/
theorem C10_second_segment_only (t part : List Char) (bytes : List Nat)
    (v : JsVal) (e : ℚ)
    (h1 : (splitOnChar '.' t)[1]? = some part)
    (h2 : atob (normalizeB64url part) = some bytes)
    (h3 : jsonParse bytes = some v)
    (h4 : getField v expKey = some (JsVal.num e)) :
    parseJwtExpMs t = JsNum.num (e * 1000) := by
  simp only [parseJwtExpMs, decodeJwtPayload, h1]
  by_cases hp : part = []
  · exfalso
    rw [hp] at h2
    have hb : atob (normalizeB64url []) = some [] := rfl
    rw [hb] at h2
    injection h2 with hbytes
    rw [← hbytes] at h3
    have hnone : jsonParse ([] : List Nat) = none := rfl
    rw [hnone] at h3
    cases h3
  · simp [hp, h2, h3, h4, jsToNumber, jsNumMul1000]

section
attribute [local semireducible] Rat.mul Rat.add

theorem C8_expiry_inspector_witness :
    parseJwtExpMs [] = JsNum.num 0 ∧
    parseJwtExpMs "noDotsHere".toList = JsNum.num 0 ∧
    parseJwtExpMs "a.!!!.c".toList = JsNum.num 0 ∧
    parseJwtExpMs "a.AA.c".toList = JsNum.num 0 ∧
    parseJwtExpMs "a.eyJmb28iOjF9.c".toList = JsNum.num 0 ∧
    parseJwtExpMs "a.eyJleHAiOjV9.c".toList = JsNum.num (mkRat 5 1 * 1000) ∧
    mkRat 5 1 * 1000 = (5000 : ℚ) := by
  refine ⟨C8_expiry_inspector.1, ?_, ?_, ?_, ?_, ?_, by decide⟩
  · exact C8_expiry_inspector.2.1 _ (by decide)
  · exact C8_expiry_inspector.2.2.1 _ "!!!".toList (by decide) (by decide)
  · exact C8_expiry_inspector.2.2.2.1 _ "AA".toList [0] (by decide) (by decide) rfl
  · exact C8_expiry_inspector.2.2.2.2.1 _ "eyJmb28iOjF9".toList
      [123, 34, 102, 111, 111, 34, 58, 49, 125]
      (JsVal.obj [([102, 111, 111], JsVal.num (mkRat 1 1))])
      (by decide) (by decide) rfl rfl
  · exact C8_expiry_inspector.2.2.2.2.2 _ "eyJleHAiOjV9".toList
      [123, 34, 101, 120, 112, 34, 58, 53, 125]
      (JsVal.obj [([101, 120, 112], JsVal.num (mkRat 5 1))]) (mkRat 5 1)
      (by decide) (by decide) rfl rfl

theorem C10_second_segment_only_witness :
    parseJwtExpMs "x.eyJleHAiOjV9".toList = JsNum.num (mkRat 5 1 * 1000) ∧
    mkRat 5 1 * 1000 = (5000 : ℚ) := by
  constructor
  · exact C10_second_segment_only "x.eyJleHAiOjV9".toList "eyJleHAiOjV9".toList
      [123, 34, 101, 120, 112, 34, 58, 53, 125]
      (JsVal.obj [([101, 120, 112], JsVal.num (mkRat 5 1))]) (mkRat 5 1)
      (by decide) (by decide) rfl rfl
  · decide

end

end Changelog
